import Mathlib

/-!
Verification of the budget application's persistence-and-projection core
(`core/database.py`, `core/validation.py`, `core/services.py`, `core/model.py`).

Shallow embedding conventions:
* Python `float` amounts are modelled as rationals (`ℚ`); the special
  literals `inf`/`nan` and underscore digit separators are not modelled,
  so `pyParseFloat` rejects them.
* Python's `str.lower`, `str.strip` and whitespace handling are modelled
  over ASCII.
* SQLite is modelled as an explicit state (`DbState`); every statement
  sequence of a transaction runs on a working copy which is committed on
  success and discarded (rollback) on failure.  Fallible statements are
  driven by explicit failure oracles (`Bool` flags / `failAt` indices)
  standing for `sqlite3.Error` raised by a given statement.
* Python object aliasing (the model's canonical and displayed lists hold
  references to shared mutable `Depense` objects) is modelled with a heap
  `Nat → Depense` and lists of references.
-/

deriving instance DecidableEq for Except

/-! ### String helpers (Python semantics over ASCII) -/

/-- ASCII lower-casing of one character, as Python `str.lower` does on ASCII. -/
def asciiLower (c : Char) : Char :=
  if 'A' ≤ c ∧ c ≤ 'Z' then Char.ofNat (c.toNat + 32) else c

/-- Python `s.lower()` over ASCII. -/
def pyLower (s : String) : String := String.mk (s.toList.map asciiLower)

/-- Does `hay` start with `needle`? -/
def listStartsWith : List Char → List Char → Bool
  | [], _ => true
  | _ :: _, [] => false
  | a :: as, b :: bs => a = b && listStartsWith as bs

/-- Python's `needle in hay` contiguous-substring test on strings (as char lists). -/
def listSubstr (needle : List Char) : List Char → Bool
  | [] => needle.isEmpty
  | c :: t => listStartsWith needle (c :: t) || listSubstr needle t

/-- Python `needle in hay` on strings. -/
def pyIn (needle hay : String) : Bool := listSubstr needle.toList hay.toList

/-- Code-point lexicographic `≤` on char lists: Python's total order on `str`. -/
def charListLe : List Char → List Char → Bool
  | [], _ => true
  | _ :: _, [] => false
  | a :: as, b :: bs =>
    if a.toNat < b.toNat then true
    else if b.toNat < a.toNat then false
    else charListLe as bs

/-- Python `≤` on strings. -/
def strLe (a b : String) : Bool := charListLe a.toList b.toList

/-! ### Stable sorting (CPython `list.sort` semantics) -/

/-- Insert `a` into `l` before the first element `b` with `le a b`; part of a
stable insertion sort mirroring the stability guarantee of CPython sort. -/
def stableInsert (le : α → α → Bool) (a : α) : List α → List α
  | [] => [a]
  | b :: bs => if le a b then a :: b :: bs else b :: stableInsert le a bs

/-- Stable ascending sort by the boolean total preorder `le`: elements that tie
keep their original relative order, as CPython `list.sort` guarantees. -/
def stableSort (le : α → α → Bool) : List α → List α
  | [] => []
  | a :: as => stableInsert le a (stableSort le as)

/-! ### Python `float()` literal parsing (finite values, over `ℚ`) -/

/-- The ASCII whitespace characters Python strips around a float literal. -/
def isPySpace (c : Char) : Bool :=
  c = ' ' || c = '\t' || c = '\n' || c = '\x0d' || c = '\x0b' || c = '\x0c'

/-- Split a leading run of decimal digits from a char list. -/
def takeDigits : List Char → List Char × List Char
  | [] => ([], [])
  | c :: cs =>
    if c.isDigit then
      let p := takeDigits cs
      (c :: p.1, p.2)
    else ([], c :: cs)

/-- Numeric value of a digit run. -/
def digitsToNat (l : List Char) : ℕ :=
  l.foldl (fun a c => a * 10 + (c.toNat - 48)) 0

/-- Parse the optional exponent suffix (`e`/`E`, optional sign, digits) of a
Python float literal; `some e` on success (no suffix parses as exponent 0). -/
def parseExpSuffix : List Char → Option ℤ
  | [] => some 0
  | c :: t =>
    if c = 'e' || c = 'E' then
      let st : ℤ × List Char :=
        match t with
        | '+' :: u => (1, u)
        | '-' :: u => (-1, u)
        | _ => (1, t)
      let p := takeDigits st.2
      if p.1.isEmpty || !p.2.isEmpty then none
      else some (st.1 * (digitsToNat p.1 : ℤ))
    else none

/-- Python `float(s)` restricted to finite decimal literals, as a rational:
optional surrounding whitespace, optional sign, `digits[.digits]` or
`.digits`, optional exponent.  `inf`/`nan` and `_` separators are not
modelled and parse to `none`. -/
def pyParseFloat (s : String) : Option ℚ :=
  let l := ((s.toList.dropWhile isPySpace).reverse.dropWhile isPySpace).reverse
  let sgn : ℚ × List Char :=
    match l with
    | '+' :: t => (1, t)
    | '-' :: t => (-1, t)
    | _ => (1, l)
  let ip := takeDigits sgn.2
  match ip.2 with
  | '.' :: r2 =>
    let fp := takeDigits r2
    if ip.1.isEmpty && fp.1.isEmpty then none
    else
      (parseExpSuffix fp.2).map (fun e =>
        sgn.1 * ((digitsToNat ip.1 : ℚ) + (digitsToNat fp.1 : ℚ) / (10 ^ fp.1.length : ℚ))
          * (10 : ℚ) ^ e)
  | _ =>
    if ip.1.isEmpty then none
    else (parseExpSuffix ip.2).map (fun e => sgn.1 * (digitsToNat ip.1 : ℚ) * (10 : ℚ) ^ e)

/-- Python `s.strip()` over ASCII whitespace. -/
def pyStrip (s : String) : String :=
  String.mk (((s.toList.dropWhile isPySpace).reverse.dropWhile isPySpace).reverse)

/-- Python `s.replace(",", ".")`: every comma becomes a dot. -/
def pyCommaToDot (s : String) : String :=
  String.mk (s.toList.map (fun c => if c = ',' then '.' else c))

/-- Python `s.split("/")` on a char list (used by `strptime` field splitting). -/
def splitSlash : List Char → List Char → List (List Char)
  | [], acc => [acc.reverse]
  | c :: t, acc => if c = '/' then acc.reverse :: splitSlash t [] else splitSlash t (c :: acc)

/-! ### Date parsing (`datetime.strptime(s, "%d/%m/%Y")`) -/

/-- Day count of a month, with the Gregorian leap rule, as `datetime` validates. -/
def daysInMonth (y m : ℕ) : ℕ :=
  if m = 2 then (if y % 4 = 0 ∧ (y % 100 ≠ 0 ∨ y % 400 = 0) then 29 else 28)
  else if m = 4 ∨ m = 6 ∨ m = 9 ∨ m = 11 then 30
  else 31

/-- `datetime.strptime(s, "%d/%m/%Y")`, returning the date as `(year, month,
day)` so that tuple order is chronological order; `none` when parsing fails. -/
def parseDate (s : String) : Option (ℕ × ℕ × ℕ) :=
  match splitSlash s.toList [] with
  | [dl, ml, yl] =>
    if dl.all Char.isDigit ∧ ml.all Char.isDigit ∧ yl.all Char.isDigit ∧
        1 ≤ dl.length ∧ dl.length ≤ 2 ∧ 1 ≤ ml.length ∧ ml.length ≤ 2 ∧
        1 ≤ yl.length ∧ yl.length ≤ 4 then
      let d := digitsToNat dl
      let m := digitsToNat ml
      let y := digitsToNat yl
      if 1 ≤ y ∧ 1 ≤ m ∧ m ≤ 12 ∧ 1 ≤ d ∧ d ≤ daysInMonth y m then
        some (y, m, d)
      else none
    else none
  | _ => none

/-! ### Data model (`core/data_models.py`) -/

/-- The `Depense` dataclass: one income or expense line. -/
structure Depense where
  id : Option ℕ := none
  nom : String := ""
  montant : ℚ := 0
  categorie : String := "Autres"
  date_depense : String := ""
  est_credit : Bool := false
  effectue : Bool := false
  emprunte : Bool := false
  est_fixe : Bool := false
deriving DecidableEq, Repr

/-- The `Mois` dataclass as held in `mois_actuel` (id always set there). -/
structure Mois where
  id : ℕ
  nom : String
  salaire : ℚ
deriving DecidableEq, Repr

/-- Outcome of a model-layer operation (`Result`); messages are not modelled. -/
inductive PyResult where
  | ok : PyResult
  | err : PyResult
deriving DecidableEq, Repr

/-- `ValidationResult` for expense data: the three validated fields are
always populated by the validator, so they are plain fields here. -/
structure ExpenseValidation where
  errors : List String
  nomV : String
  montantV : ℚ
  categorieV : String
deriving DecidableEq, Repr

/-- `is_valid` of a `ValidationResult`. -/
def ExpenseValidation.isValid (v : ExpenseValidation) : Bool := v.errors.isEmpty

/-! ### Validator (`core/validation.py`) -/

/-- The amount-parsing step of `validate_expense_data` /
`validate_mois_data`: empty input short-circuits to `0.0`, otherwise commas
become dots and Python `float` parses the result. -/
def parseAmountField (montant : String) : Option ℚ :=
  if montant = "" then some 0 else pyParseFloat (pyCommaToDot montant)

/-- `DataValidator.validate_expense_data(nom, montant, categorie)`. -/
def validate_expense_data (nom montant categorie : String) : ExpenseValidation :=
  let nomV := if nom = "" then "" else pyStrip nom
  let mont : List String × ℚ :=
    match parseAmountField montant with
    | none => (["Le montant doit etre un nombre valide"], 0)
    | some q => (if q < 0 then ["Le montant ne peut pas etre negatif"] else [], q)
  let categorieV := if categorie = "" then "Autres" else categorie
  { errors := mont.1, nomV := nomV, montantV := mont.2, categorieV := categorieV }

/-- `ValidationResult` of `validate_mois_data`. -/
structure MoisValidation where
  errors : List String
  nomV : String
  salaireV : ℚ
deriving DecidableEq, Repr

/-- `is_valid` of a mois `ValidationResult`. -/
def MoisValidation.isValid (v : MoisValidation) : Bool := v.errors.isEmpty

/-- `DataValidator.validate_mois_data(nom, salaire)`. -/
def validate_mois_data (nom salaire : String) : MoisValidation :=
  let nomErr := if pyStrip nom = "" then ["Le nom du mois est requis"] else []
  let sal : List String × ℚ :=
    match parseAmountField salaire with
    | none => (["Le salaire doit etre un nombre valide"], 0)
    | some q => (if q < 0 then ["Le salaire ne peut pas etre negatif"] else [], q)
  { errors := nomErr ++ sal.1, nomV := pyStrip nom, salaireV := sal.2 }

/-! ### Persistent store (`core/database.py`, `DatabaseManager`) -/

/-- One row of the `mois` table. -/
structure MoisRow where
  id : ℕ
  nom : String
  salaire : ℚ
deriving DecidableEq, Repr

/-- One row of the `depenses` table. -/
structure DepRow where
  id : ℕ
  mois_id : ℕ
  nom : String
  montant : ℚ
  categorie : String
  date_depense : String
  est_credit : Bool
  effectue : Bool
  emprunte : Bool
  est_fixe : Bool
deriving DecidableEq, Repr

/-- The SQLite database state: the two tables (in rowid order), the next
autoincrement ids, and the `config` key/value table. -/
structure DbState where
  mois : List MoisRow
  deps : List DepRow
  nextMoisId : ℕ
  nextDepId : ℕ
  config : List (String × String)
deriving DecidableEq, Repr

/-- `SELECT ... FROM mois WHERE nom = ?` + `fetchone` (`get_mois_by_name`). -/
def db_get_mois_by_name (db : DbState) (nom : String) : Option MoisRow :=
  db.mois.find? (fun m => m.nom = nom)

/-- `SELECT ... FROM mois WHERE id = ?` + `fetchone` (`get_mois_by_id`). -/
def db_get_mois_by_id (db : DbState) (mid : ℕ) : Option MoisRow :=
  db.mois.find? (fun m => m.id = mid)

/-- Conversion of a `depenses` row to the `Depense` dataclass, as the row
loop of `get_depenses_by_mois` builds it. -/
def rowToDep (r : DepRow) : Depense :=
  { id := some r.id, nom := r.nom, montant := r.montant, categorie := r.categorie,
    date_depense := r.date_depense, est_credit := r.est_credit,
    effectue := r.effectue, emprunte := r.emprunte, est_fixe := r.est_fixe }

/-- `get_depenses_by_mois`: all rows of the given month, in rowid order. -/
def db_get_depenses_by_mois (db : DbState) (mid : ℕ) : List Depense :=
  (db.deps.filter (fun r => r.mois_id = mid)).map rowToDep

/-- The 9-column `INSERT INTO depenses` used by `create_depense` and
`duplicate_mois` (includes `est_fixe`), returning the new row. -/
def depInsertRow (newId mid : ℕ) (d : Depense) : DepRow :=
  { id := newId, mois_id := mid, nom := d.nom, montant := d.montant,
    categorie := d.categorie, date_depense := d.date_depense,
    est_credit := d.est_credit, effectue := d.effectue,
    emprunte := d.emprunte, est_fixe := d.est_fixe }

/-- The 8-column `INSERT INTO depenses` used by `import_new_mois`: the
`est_fixe` column is omitted, so it takes its SQL default `0`. -/
def depImportRow (newId mid : ℕ) (d : Depense) : DepRow :=
  { id := newId, mois_id := mid, nom := d.nom, montant := d.montant,
    categorie := d.categorie, date_depense := d.date_depense,
    est_credit := d.est_credit, effectue := d.effectue,
    emprunte := d.emprunte, est_fixe := false }

/-- `create_mois`: insert a month row; `DatabaseError` when the name exists
(`IntegrityError` on the UNIQUE constraint) or when the statement fails
(`fail` oracle). `Except.error ()` is a raised `DatabaseError`. -/
def db_create_mois (fail : Bool) (db : DbState) (nom : String) (salaire : ℚ) :
    DbState × Except Unit ℕ :=
  if fail then (db, Except.error ())
  else if db.mois.any (fun m => m.nom = nom) then (db, Except.error ())
  else
    ({ db with mois := db.mois ++ [⟨db.nextMoisId, nom, salaire⟩],
               nextMoisId := db.nextMoisId + 1 },
     Except.ok db.nextMoisId)

/-- `create_depense`: insert one expense row, returning its id; the `fail`
oracle stands for a raised `sqlite3.Error` (no change committed). -/
def db_create_depense (fail : Bool) (db : DbState) (mid : ℕ) (d : Depense) :
    DbState × Except Unit ℕ :=
  if fail then (db, Except.error ())
  else
    ({ db with deps := db.deps ++ [depInsertRow db.nextDepId mid d],
               nextDepId := db.nextDepId + 1 },
     Except.ok db.nextDepId)

/-- `UPDATE depenses SET ... WHERE id = ?` on one row. -/
def depUpdateRow (d : Depense) (r : DepRow) : DepRow :=
  if some r.id = d.id then
    { r with nom := d.nom, montant := d.montant, categorie := d.categorie,
             date_depense := d.date_depense, effectue := d.effectue,
             emprunte := d.emprunte, est_credit := d.est_credit,
             est_fixe := d.est_fixe }
  else r

/-- `update_depense`: update the row whose id matches `d.id`. -/
def db_update_depense (fail : Bool) (db : DbState) (d : Depense) :
    DbState × Except Unit Unit :=
  if fail then (db, Except.error ())
  else ({ db with deps := db.deps.map (depUpdateRow d) }, Except.ok ())

/-- `delete_depense`: delete the row with the given id. -/
def db_delete_depense (fail : Bool) (db : DbState) (did : ℕ) :
    DbState × Except Unit Unit :=
  if fail then (db, Except.error ())
  else ({ db with deps := db.deps.filter (fun r => r.id ≠ did) }, Except.ok ())

/-- `delete_mois`: in one transaction, resolve the name, delete the month's
expense rows, then the month row; returns whether a month was deleted. -/
def db_delete_mois (fail : Bool) (db : DbState) (nom : String) :
    DbState × Except Unit Bool :=
  if fail then (db, Except.error ())
  else
    match db_get_mois_by_name db nom with
    | none => (db, Except.ok false)
    | some m =>
      ({ db with deps := db.deps.filter (fun r => r.mois_id ≠ m.id),
                 mois := db.mois.filter (fun r => r.id ≠ m.id) },
       Except.ok true)

/-- `update_mois_name`: rename a month; `DatabaseError` when the new name is
taken by another row (`IntegrityError`) or the statement fails. -/
def db_update_mois_name (fail : Bool) (db : DbState) (mid : ℕ) (newName : String) :
    DbState × Except Unit Unit :=
  if fail then (db, Except.error ())
  else if db.mois.any (fun m => m.nom = newName ∧ m.id ≠ mid) then (db, Except.error ())
  else
    ({ db with mois := db.mois.map (fun m => if m.id = mid then { m with nom := newName } else m) },
     Except.ok ())

/-- `save_config` (`INSERT OR REPLACE INTO config`). -/
def db_save_config (db : DbState) (key value : String) : DbState :=
  { db with config := (db.config.filter (fun p => p.1 ≠ key)) ++ [(key, value)] }

/-- The depense-copying loop of `duplicate_mois`: insert a copy of each
source record for the new month on the working state; `failAt = some k`
makes the `k`-th `INSERT` raise (counting from `k0`), which rolls the whole
transaction back (`none`). -/
def insertDupCopies (newMid : ℕ) (failAt : Option ℕ) :
    List Depense → ℕ → DbState → Option DbState
  | [], _, db => some db
  | d :: ds, k, db =>
    if failAt = some k then none
    else insertDupCopies newMid failAt ds (k + 1)
      { db with deps := db.deps ++ [depInsertRow db.nextDepId newMid d],
                nextDepId := db.nextDepId + 1 }

/-- `DatabaseManager.duplicate_mois(original_mois_id, new_mois_name)`: one
transaction that inserts the new month row then copies every source record;
a name collision (`IntegrityError`) or any mid-copy failure (`failAt`)
rolls everything back and raises `DatabaseError` (`Except.error ()`).
`Except.ok false` is the `Result.error` returned when the source month does
not exist (nothing written); `Except.ok true` is success. -/
def db_duplicate_mois (failAt : Option ℕ) (db : DbState)
    (origId : ℕ) (newName : String) : DbState × Except Unit Bool :=
  match db_get_mois_by_id db origId with
  | none => (db, Except.ok false)
  | some om =>
    if db.mois.any (fun m => m.nom = newName) then (db, Except.error ())
    else
      let db1 : DbState :=
        { db with mois := db.mois ++ [⟨db.nextMoisId, newName, om.salaire⟩],
                  nextMoisId := db.nextMoisId + 1 }
      match insertDupCopies db.nextMoisId failAt (db_get_depenses_by_mois db origId) 0 db1 with
      | none => (db, Except.error ())
      | some db2 => (db2, Except.ok true)

/-- The depense-inserting loop of `import_new_mois` (8-column insert,
`est_fixe` omitted); `failAt` as in `insertDupCopies`. -/
def insertImportCopies (newMid : ℕ) (failAt : Option ℕ) :
    List Depense → ℕ → DbState → Option DbState
  | [], _, db => some db
  | d :: ds, k, db =>
    if failAt = some k then none
    else insertImportCopies newMid failAt ds (k + 1)
      { db with deps := db.deps ++ [depImportRow db.nextDepId newMid d],
                nextDepId := db.nextDepId + 1 }

/-- `DatabaseManager.import_new_mois(nom_mois, salaire, depenses)`: one
transaction creating the month row then inserting every supplied record; a
name collision or any mid-insert failure rolls everything back and raises
`DatabaseError`; success returns the new month id. -/
def db_import_new_mois (failAt : Option ℕ) (db : DbState)
    (nom : String) (salaire : ℚ) (deps : List Depense) : DbState × Except Unit ℕ :=
  if db.mois.any (fun m => m.nom = nom) then (db, Except.error ())
  else
    let db1 : DbState :=
      { db with mois := db.mois ++ [⟨db.nextMoisId, nom, salaire⟩],
                nextMoisId := db.nextMoisId + 1 }
    match insertImportCopies db.nextMoisId failAt deps 0 db1 with
    | none => (db, Except.error ())
    | some db2 => (db2, Except.ok db.nextMoisId)

/-! ### Import/export service (`core/services.py`, `ImportExportService`) -/

/-- A spreadsheet cell as the import loop sees it: empty (`None` or `""`),
a number, or a non-numeric string (`float` of it raises `ValueError`). -/
inductive Cell where
  | empty : Cell
  | num : ℚ → Cell
  | badStr : Cell
deriving DecidableEq, Repr

/-- Python truthiness of a cell value (`None`/`""`/`0` are falsy). -/
def cellTruthy : Cell → Bool
  | Cell.empty => false
  | Cell.num q => decide (q ≠ 0)
  | Cell.badStr => true

/-- One pre-parsed data row of the Excel sheet, below the header: the
label and date cells rendered to strings (empty string = missing cell),
and the debit / credit cells. -/
structure XRow where
  nom : String
  dateStr : String
  debit : Cell
  credit : Cell
deriving DecidableEq, Repr

/-- The debit half of the row-classification in `import_from_excel`
(`elif "debit" in col_indices and debit_val and float(debit_val) > 0`);
`none` covers both a raised `ValueError` and the final `else: continue`. -/
def classifyDebit (hasDebit : Bool) (c : Cell) : Option (ℚ × Bool) :=
  if hasDebit && cellTruthy c then
    match c with
    | Cell.badStr => none
    | Cell.num q => if 0 < q then some (q, false) else none
    | Cell.empty => none
  else none

/-- Row classification of `import_from_excel`: credit first, then debit;
`some (montant, est_credit)` keeps the row, `none` skips it. -/
def classifyRow (hasDebit hasCredit : Bool) (r : XRow) : Option (ℚ × Bool) :=
  if hasCredit && cellTruthy r.credit then
    match r.credit with
    | Cell.badStr => none
    | Cell.num q => if 0 < q then some (q, true) else classifyDebit hasDebit r.debit
    | Cell.empty => classifyDebit hasDebit r.debit
  else classifyDebit hasDebit r.debit

/-- The row loop of `import_from_excel`: skip rows with a missing label or
date, classify the rest, and build a `Depense` (`effectue=True`, stripped
label) for every kept row, in sheet order. -/
def processExcelRows (hasDebit hasCredit : Bool) : List XRow → List Depense
  | [] => []
  | r :: rs =>
    if r.nom = "" ∨ r.dateStr = "" then processExcelRows hasDebit hasCredit rs
    else
      match classifyRow hasDebit hasCredit r with
      | none => processExcelRows hasDebit hasCredit rs
      | some mc =>
        { nom := pyStrip r.nom, montant := mc.1, date_depense := r.dateStr,
          est_credit := mc.2, effectue := true : Depense }
          :: processExcelRows hasDebit hasCredit rs

/-- `sum(op.montant for op in operations_a_importer if op.est_credit)`. -/
def creditSum (ops : List Depense) : ℚ :=
  ((ops.filter (fun d => d.est_credit)).map (fun d => d.montant)).sum

/-- `ImportExportService.import_from_excel` after the sheet has been read
(header discovery and cell extraction are external parsing): classify the
rows, seed the new month's salary with the credit sum, and delegate the
single transaction to `import_new_mois`.  Returns the new database state
and whether the returned `Result` is a success. -/
def import_from_excel (failAt : Option ℕ) (hasDebit hasCredit : Bool)
    (rows : List XRow) (newName : String) (db : DbState) : DbState × Bool :=
  if rows.isEmpty then (db, false)
  else
    let ops := processExcelRows hasDebit hasCredit rows
    let salaire := creditSum ops
    match db_import_new_mois failAt db newName salaire ops with
    | (db2, Except.ok _) => (db2, true)
    | (db2, Except.error _) => (db2, false)

/-- One entry of the `depenses` array of an imported JSON file; `none`
stands for an absent key (`dict.get` default applies).  `est_fixe` is
present in exported files but `import_from_json` never reads it. -/
structure JEntry where
  nom : Option String
  montant : Option ℚ
  categorie : Option String
  date_depense : Option String
  est_credit : Option Bool
  effectue : Option Bool
  emprunte : Option Bool
  est_fixe : Option Bool
deriving DecidableEq, Repr

/-- A parsed JSON import file: the optional `mois.salaire` figure, whether
the `depenses` key is present, and its entries. -/
structure JFile where
  salaire : Option ℚ
  hasDepensesKey : Bool
  depenses : List JEntry
deriving DecidableEq, Repr

/-- The `Depense` built from one JSON entry by `import_from_json`; `today`
is the `datetime.now` date string used when `date_depense` is absent.
The constructor passes no `est_fixe`, so the dataclass default `False`
applies even when the file carries `est_fixe = true`. -/
def jEntryToDep (today : String) (e : JEntry) : Depense :=
  { nom := e.nom.getD "Depense sans nom", montant := e.montant.getD 0,
    categorie := e.categorie.getD "Autres",
    date_depense := e.date_depense.getD today,
    est_credit := e.est_credit.getD false, effectue := e.effectue.getD false,
    emprunte := e.emprunte.getD false }

/-- `ImportExportService.import_from_json` after file reading and JSON
decoding (external parsing): check the `depenses` key, build the record
list, and delegate the single transaction to `import_new_mois`. -/
def import_from_json (failAt : Option ℕ) (today : String) (f : JFile)
    (newName : String) (db : DbState) : DbState × Bool :=
  if !f.hasDepensesKey then (db, false)
  else
    let deps := f.depenses.map (jEntryToDep today)
    match db_import_new_mois failAt db newName (f.salaire.getD 0) deps with
    | (db2, Except.ok _) => (db2, true)
    | (db2, Except.error _) => (db2, false)

/-! ### Model layer (`core/model.py`, `BudgetModel`) -/

/-- The in-memory state of `BudgetModel`.  `heap`/`nextRef` model Python
object identity: `depenses` (canonical) and `_displayed_depenses`
(projection) are lists of references into the heap, so that one in-place
mutation is visible through both lists, as in the source.  `events` logs
every `notify_observers` call in order. -/
structure ModelState where
  db : DbState
  heap : ℕ → Depense
  nextRef : ℕ
  moisActuel : Option Mois
  depenses : List ℕ
  displayed : List ℕ
  searchTerm : String
  sortKey : String
  events : List String

/-- Point update of the heap (one Python object mutated or created). -/
def hupd (h : ℕ → Depense) (r : ℕ) (d : Depense) : ℕ → Depense :=
  fun x => if x = r then d else h x

/-- `notify_observers(event, ...)`: append the event to the log. -/
def notifyEv (ev : String) (st : ModelState) : ModelState :=
  { st with events := st.events ++ [ev] }

/-- `x ≤ y` on booleans with Python's `False < True`. -/
def boolLe (x y : Bool) : Bool := !x || y

/-- Lexicographic `≤` on `(year, month, day)` triples: chronological order
of the corresponding `datetime` values. -/
def lex3Le (x y : ℕ × ℕ × ℕ) : Bool :=
  if x.1 < y.1 then true
  else if y.1 < x.1 then false
  else if x.2.1 < y.2.1 then true
  else if y.2.1 < x.2.1 then false
  else decide (x.2.2 ≤ y.2.2)

/-- Date-key comparison of two records (by reference); only meaningful when
both dates parse — the refresh guard skips the sort otherwise. -/
def dateLeRef (h : ℕ → Depense) (a b : ℕ) : Bool :=
  match parseDate (h a).date_depense, parseDate (h b).date_depense with
  | some x, some y => lex3Le x y
  | _, _ => true

/-- The `"type"` sort key: ascending by the tuple
`(not est_credit, nom)` (credits first, then raw label). -/
def typeLeRef (h : ℕ → Depense) (a b : ℕ) : Bool :=
  if (!(h a).est_credit) = (!(h b).est_credit) then strLe (h a).nom (h b).nom
  else !(!(h a).est_credit)

/-- The sort dispatch of `_refresh_displayed_expenses`: one stable
`list.sort` per sort key (`reverse=True` keys compare flipped, which keeps
ties in original order exactly as CPython does); unknown keys fall back to
`date_desc`. -/
def pySortRefs (h : ℕ → Depense) (key : String) (l : List ℕ) : List ℕ :=
  if key = "montant_desc" then stableSort (fun a b => decide ((h b).montant ≤ (h a).montant)) l
  else if key = "montant_asc" then stableSort (fun a b => decide ((h a).montant ≤ (h b).montant)) l
  else if key = "date_desc" then stableSort (fun a b => dateLeRef h b a) l
  else if key = "date_asc" then stableSort (fun a b => dateLeRef h a b) l
  else if key = "nom_asc" then stableSort (fun a b => strLe (pyLower (h a).nom) (pyLower (h b).nom)) l
  else if key = "nom_desc" then stableSort (fun a b => strLe (pyLower (h b).nom) (pyLower (h a).nom)) l
  else if key = "effectue_desc" then stableSort (fun a b => boolLe (h b).effectue (h a).effectue) l
  else if key = "effectue_asc" then stableSort (fun a b => boolLe (h a).effectue (h b).effectue) l
  else if key = "est_fixe_desc" then stableSort (fun a b => boolLe (h b).est_fixe (h a).est_fixe) l
  else if key = "type" then stableSort (typeLeRef h) l
  else stableSort (fun a b => dateLeRef h b a) l

/-- The sort keys whose comparator never calls `strptime`; every other key
(including unknown ones, which fall back to `date_desc`) parses dates. -/
def nonDateKeys : List String :=
  ["montant_desc", "montant_asc", "nom_asc", "nom_desc",
   "effectue_desc", "effectue_asc", "est_fixe_desc", "type"]

/-- Does the given sort key parse dates (and hence can raise)? -/
def usesDateKey (k : String) : Bool := !(nonDateKeys.contains k)

/-- The filter step of `_refresh_displayed_expenses`: an empty stored term
keeps a copy of the whole canonical list, otherwise the (already lowered)
term must be a substring of the lowered label. -/
def pyFilter (h : ℕ → Depense) (term : String) (refs : List ℕ) : List ℕ :=
  if term = "" then refs else refs.filter (fun r => pyIn term (pyLower (h r).nom))

/-- Does some record in the list have an unparseable date?  When a date
sort key is active this makes the `list.sort` key raise `ValueError`,
which the surrounding `try` swallows, leaving the list unsorted (CPython
computes all keys before permuting, so the list keeps its order). -/
def badDateIn (h : ℕ → Depense) (refs : List ℕ) : Bool :=
  refs.any (fun r => (parseDate (h r).date_depense).isNone)

/-- The displayed list computed by `_refresh_displayed_expenses`: filter,
then sort — unless a date key meets an unparseable date, in which case the
filtered list stays in canonical order. -/
def displayedOf (h : ℕ → Depense) (key term : String) (refs : List ℕ) : List ℕ :=
  let f := pyFilter h term refs
  if usesDateKey key && badDateIn h f then f else pySortRefs h key f

/-- `BudgetModel._refresh_displayed_expenses`: rebuild the displayed list
from the canonical list and notify `display_updated`. -/
def refreshDisplayed (st : ModelState) : ModelState :=
  notifyEv "display_updated"
    { st with displayed := displayedOf st.heap st.sortKey st.searchTerm st.depenses }

/-- `BudgetModel.filter_depenses_by_name`: store the lowered term, rebuild. -/
def filter_depenses_by_name (t : String) (st : ModelState) : ModelState :=
  refreshDisplayed { st with searchTerm := pyLower t }

/-- `BudgetModel.sort_depenses`: store the key, rebuild, return success. -/
def sort_depenses (k : String) (st : ModelState) : ModelState × PyResult :=
  (refreshDisplayed { st with sortKey := k }, PyResult.ok)

/-- Allocate one fresh heap object per loaded `Depense`, returning the new
heap, next free reference and the reference list (in load order). -/
def allocDeps (h : ℕ → Depense) (next : ℕ) : List Depense → (ℕ → Depense) × ℕ × List ℕ
  | [] => (h, next, [])
  | d :: ds =>
    let p := allocDeps (hupd h next d) (next + 1) ds
    (p.1, p.2.1, next :: p.2.2)

/-- `BudgetModel.load_mois(nom)`: fetch the month and its records, replace
the canonical and displayed lists wholesale (fresh objects), reset the
search term (the sort key is left as is), rebuild the projection, save the
`last_mois` config key, notify `mois_loaded`. -/
def load_mois (nom : String) (st : ModelState) : ModelState × PyResult :=
  match db_get_mois_by_name st.db nom with
  | none => (st, PyResult.err)
  | some m =>
    let deps := db_get_depenses_by_mois st.db m.id
    let al := allocDeps st.heap st.nextRef deps
    let st1 : ModelState :=
      { st with heap := al.1, nextRef := al.2.1,
                moisActuel := some ⟨m.id, m.nom, m.salaire⟩,
                depenses := al.2.2, displayed := al.2.2, searchTerm := "" }
    let st2 := refreshDisplayed st1
    let st3 := { st2 with db := db_save_config st2.db "last_mois" nom }
    (notifyEv "mois_loaded" st3, PyResult.ok)

/-- `BudgetModel.add_expense`: validate (invalid amounts only log a
warning), build the record, persist it, append it to the canonical list,
and append it to the displayed list only when it matches the current
search predicate; no re-sort, one `expense_added` event. -/
def add_expense (dbFail : Bool) (nom montantStr categorie : String)
    (effectue emprunte est_fixe : Bool) (st : ModelState) : ModelState × PyResult :=
  match st.moisActuel with
  | none => (st, PyResult.err)
  | some m =>
    let v := validate_expense_data nom montantStr categorie
    let d : Depense :=
      { nom := v.nomV, montant := v.montantV, categorie := v.categorieV,
        effectue := effectue, emprunte := emprunte, est_fixe := est_fixe }
    match db_create_depense dbFail st.db m.id d with
    | (_, Except.error _) => (st, PyResult.err)
    | (db2, Except.ok did) =>
      let d2 := { d with id := some did }
      let r := st.nextRef
      let st1 : ModelState :=
        { st with db := db2, heap := hupd st.heap r d2, nextRef := r + 1,
                  depenses := st.depenses ++ [r],
                  displayed :=
                    if st.searchTerm = "" || pyIn st.searchTerm (pyLower d2.nom) then
                      st.displayed ++ [r]
                    else st.displayed }
      (notifyEv "expense_added" st1, PyResult.ok)

/-- The field overwrite `update_expense` performs on a `Depense` object. -/
def applyUpdate (v : ExpenseValidation) (date : String)
    (effectue emprunte est_fixe : Bool) (d : Depense) : Depense :=
  { d with nom := v.nomV, montant := v.montantV, categorie := v.categorieV,
           date_depense := date, effectue := effectue, emprunte := emprunte,
           est_fixe := est_fixe }

/-- `BudgetModel.update_expense`: resolve the displayed record at `index`,
find the canonical record with the same id, validate, mutate the canonical
object **in place before the store write**, persist, and on success mutate
the displayed object too.  A failed store write therefore returns an error
with the in-memory mutation already applied. -/
def update_expense (dbFail : Bool) (index : ℕ)
    (nom montantStr date categorie : String) (effectue emprunte est_fixe : Bool)
    (st : ModelState) : ModelState × PyResult :=
  match st.displayed[index]? with
  | none => (st, PyResult.err)
  | some targetRef =>
    match st.depenses.find? (fun r => (st.heap r).id = (st.heap targetRef).id) with
    | none => (st, PyResult.err)
    | some origRef =>
      let v := validate_expense_data nom montantStr categorie
      if !v.isValid then (st, PyResult.err)
      else
        let h1 := hupd st.heap origRef (applyUpdate v date effectue emprunte est_fixe (st.heap origRef))
        match db_update_depense dbFail st.db (h1 origRef) with
        | (_, Except.error _) => ({ st with heap := h1 }, PyResult.err)
        | (db2, Except.ok _) =>
          ({ st with db := db2,
                     heap := hupd h1 targetRef
                       (applyUpdate v date effectue emprunte est_fixe (h1 targetRef)) },
           PyResult.ok)

/-- `BudgetModel.remove_expense(index)`: delete from the store when the
record's id is truthy, drop the canonical entry, notify `expense_removed`
(the displayed list is not touched). -/
def remove_expense (dbFail : Bool) (index : ℕ) (st : ModelState) : ModelState × PyResult :=
  match st.depenses[index]? with
  | none => (st, PyResult.err)
  | some r =>
    match (st.heap r).id with
    | some i =>
      if i ≠ 0 then
        match db_delete_depense dbFail st.db i with
        | (_, Except.error _) => (st, PyResult.err)
        | (db2, Except.ok _) =>
          (notifyEv "expense_removed"
            { st with db := db2, depenses := st.depenses.eraseIdx index }, PyResult.ok)
      else
        (notifyEv "expense_removed"
          { st with depenses := st.depenses.eraseIdx index }, PyResult.ok)
    | none =>
      (notifyEv "expense_removed"
        { st with depenses := st.depenses.eraseIdx index }, PyResult.ok)

/-- `BudgetModel.delete_mois(nom)`: delete in the store; when the deleted
month is the active one, clear the in-memory data (`clear_all_data`) and
notify `mois_cleared`; always notify `mois_deleted` on success. -/
def model_delete_mois (dbFail : Bool) (nom : String) (st : ModelState) :
    ModelState × PyResult :=
  match db_delete_mois dbFail st.db nom with
  | (_, Except.error _) => (st, PyResult.err)
  | (_, Except.ok false) => (st, PyResult.err)
  | (db2, Except.ok true) =>
    match st.moisActuel with
    | some m =>
      if m.nom = nom then
        (notifyEv "mois_deleted" (notifyEv "mois_cleared"
          { st with db := db2, moisActuel := none, depenses := [] }), PyResult.ok)
      else (notifyEv "mois_deleted" { st with db := db2 }, PyResult.ok)
    | none => (notifyEv "mois_deleted" { st with db := db2 }, PyResult.ok)

/-- `BudgetModel.duplicate_mois(new_name)`: delegate to the store; on store
success, `load_mois` the copy (with all its events); the `mois_duplicated`
notification and the success result are emitted even when the store
returned a non-raising error result. -/
def model_duplicate_mois (failAt : Option ℕ) (newName : String) (st : ModelState) :
    ModelState × PyResult :=
  match st.moisActuel with
  | none => (st, PyResult.err)
  | some m =>
    if (pyStrip newName) = "" then (st, PyResult.err)
    else
      match db_duplicate_mois failAt st.db m.id (pyStrip newName) with
      | (_, Except.error _) => (st, PyResult.err)
      | (db2, Except.ok false) => (notifyEv "mois_duplicated" { st with db := db2 }, PyResult.ok)
      | (db2, Except.ok true) =>
        let p := load_mois (pyStrip newName) { st with db := db2 }
        (notifyEv "mois_duplicated" p.1, PyResult.ok)

/-- `BudgetModel.create_mois`: validate, create the month row, make it
active with an empty canonical list, save `last_mois`, notify
`mois_created`. -/
def model_create_mois (dbFail : Bool) (nom salaireStr : String) (st : ModelState) :
    ModelState × PyResult :=
  let v := validate_mois_data nom salaireStr
  if !v.isValid then (st, PyResult.err)
  else
    match db_create_mois dbFail st.db v.nomV v.salaireV with
    | (_, Except.error _) => (st, PyResult.err)
    | (db2, Except.ok mid) =>
      (notifyEv "mois_created"
        { st with db := db_save_config db2 "last_mois" v.nomV,
                  moisActuel := some ⟨mid, v.nomV, v.salaireV⟩, depenses := [] },
       PyResult.ok)

/-- `BudgetModel.rename_mois`: an identical name short-circuits to success
without any event; an empty name is the only checked validation error;
otherwise rename in the store, update the active month, save `last_mois`,
notify `mois_renamed`. -/
def model_rename_mois (dbFail : Bool) (newName : String) (st : ModelState) :
    ModelState × PyResult :=
  match st.moisActuel with
  | none => (st, PyResult.err)
  | some m =>
    if m.nom = (pyStrip newName) then (st, PyResult.ok)
    else if (pyStrip newName) = "" then (st, PyResult.err)
    else
      match db_update_mois_name dbFail st.db m.id (pyStrip newName) with
      | (_, Except.error _) => (st, PyResult.err)
      | (db2, Except.ok _) =>
        (notifyEv "mois_renamed"
          { st with db := db_save_config db2 "last_mois" (pyStrip newName),
                    moisActuel := some { m with nom := (pyStrip newName) } },
         PyResult.ok)

/-! ### Operation alphabets for sequence claims -/

/-- One record-level mutation of the model (with its store-failure oracle). -/
inductive RecOp where
  | addE (nom montantStr categorie : String) (effectue emprunte est_fixe : Bool) (dbFail : Bool)
  | updE (index : ℕ) (nom montantStr date categorie : String)
      (effectue emprunte est_fixe : Bool) (dbFail : Bool)
  | remE (index : ℕ) (dbFail : Bool)

/-- Run one record-level operation, discarding its `Result`. -/
def runRec (o : RecOp) (st : ModelState) : ModelState :=
  match o with
  | RecOp.addE nom m c e b f fail => (add_expense fail nom m c e b f st).1
  | RecOp.updE i nom m d c e b f fail => (update_expense fail i nom m d c e b f st).1
  | RecOp.remE i fail => (remove_expense fail i st).1

/-- A full-rebuild operation: `filter_depenses_by_name`, `sort_depenses`
or `load_mois`. -/
inductive FinOp where
  | setTerm (t : String)
  | setKey (k : String)
  | loadM (nom : String)

/-- Run a full-rebuild operation, discarding its `Result`. -/
def runFin (o : FinOp) (st : ModelState) : ModelState :=
  match o with
  | FinOp.setTerm t => filter_depenses_by_name t st
  | FinOp.setKey k => (sort_depenses k st).1
  | FinOp.loadM n => (load_mois n st).1

/-- The state after a sequence of record mutations and one final
full-rebuild operation. -/
def stateAfter (st0 : ModelState) (ops : List RecOp) (fop : FinOp) : ModelState :=
  runFin fop (ops.foldl (fun s o => runRec o s) st0)

/-- Success precondition of the final operation: `load_mois` needs the
month to exist; the other two rebuilds always succeed. -/
def finOk (o : FinOp) (st : ModelState) : Bool :=
  match o with
  | FinOp.loadM n => (db_get_mois_by_name st.db n).isSome
  | _ => true

/-- No record selected by the current filter has an unparseable date while
a date sort key is active (so the rebuild's sort is not skipped). -/
def dateSortOk (st : ModelState) : Bool :=
  !(usesDateKey st.sortKey && badDateIn st.heap (pyFilter st.heap st.searchTerm st.depenses))

/-- One whole-period operation of the `PeriodManager` role. -/
inductive PmOp where
  | createP (nom salaireStr : String) (dbFail : Bool)
  | loadP (nom : String)
  | deleteP (nom : String) (dbFail : Bool)
  | renameP (newName : String) (dbFail : Bool)
  | dupP (newName : String) (failAt : Option ℕ)

/-- Run one whole-period operation. -/
def runPm (o : PmOp) (st : ModelState) : ModelState × PyResult :=
  match o with
  | PmOp.createP n s fail => model_create_mois fail n s st
  | PmOp.loadP n => load_mois n st
  | PmOp.deleteP n fail => model_delete_mois fail n st
  | PmOp.renameP n fail => model_rename_mois fail n st
  | PmOp.dupP n failAt => model_duplicate_mois failAt n st

/-! ### Supporting lemmas -/

/-- The rows inserted by the copy loop of `duplicate_mois`, with their
autoincrement ids, in source order. -/
def dupRows (startId newMid : ℕ) : List Depense → List DepRow
  | [] => []
  | d :: ds => depInsertRow startId newMid d :: dupRows (startId + 1) newMid ds

theorem dupRows_length (newMid : ℕ) :
    ∀ (ds : List Depense) (startId : ℕ), (dupRows startId newMid ds).length = ds.length := by
  intro ds
  induction ds with
  | nil => intro startId; rfl
  | cons d ds ih => intro startId; simp [dupRows, ih]

theorem insertDupCopies_ok (newMid : ℕ) (failAt : Option ℕ) :
    ∀ (ds : List Depense) (k : ℕ) (db db2 : DbState),
      insertDupCopies newMid failAt ds k db = some db2 →
      db2 = { db with deps := db.deps ++ dupRows db.nextDepId newMid ds,
                      nextDepId := db.nextDepId + ds.length } := by
  intro ds
  induction ds with
  | nil =>
    intro k db db2 h
    simp only [insertDupCopies, Option.some.injEq] at h
    simp [← h, dupRows]
  | cons d ds ih =>
    intro k db db2 h
    simp only [insertDupCopies] at h
    by_cases hf : failAt = some k
    · simp [hf] at h
    · simp only [hf, if_false] at h
      have h2 := ih (k + 1) _ db2 h
      rw [h2]
      simp [dupRows, List.append_assoc]
      omega

/-! ### C1 — `duplicatePeriod` is all-or-nothing -/

/-- C1: `DatabaseManager.duplicate_mois` is all-or-nothing.  Whenever the
call does not end in a committed duplication (`Except.ok true`) — the new
name already exists (`IntegrityError`), any mid-copy insert fails, or the
source month is missing — the database is exactly what it was before the
call, so the `mois` and `depenses` row counts are unchanged and no row for
the new month exists.  On success exactly one new month row and one copied
record row per source record are committed. -/
theorem duplicate_mois_all_or_nothing (db : DbState) (origId : ℕ) (newName : String)
    (failAt : Option ℕ) :
    ((db_duplicate_mois failAt db origId newName).2 ≠ Except.ok true →
      (db_duplicate_mois failAt db origId newName).1 = db) ∧
    ((db_duplicate_mois failAt db origId newName).2 = Except.ok true →
      (db_duplicate_mois failAt db origId newName).1.mois.length = db.mois.length + 1 ∧
      (db_duplicate_mois failAt db origId newName).1.deps.length =
        db.deps.length + (db.deps.filter (fun r => r.mois_id = origId)).length ∧
      ∃ om, db_get_mois_by_id db origId = some om ∧
        (db_duplicate_mois failAt db origId newName).1 =
          { db with
              mois := db.mois ++ [⟨db.nextMoisId, newName, om.salaire⟩],
              nextMoisId := db.nextMoisId + 1,
              deps := db.deps ++ dupRows db.nextDepId db.nextMoisId
                        (db_get_depenses_by_mois db origId),
              nextDepId := db.nextDepId + (db_get_depenses_by_mois db origId).length }) := by
  unfold db_duplicate_mois
  cases hm : db_get_mois_by_id db origId with
  | none => exact ⟨fun _ => rfl, fun h => by simp at h⟩
  | some om =>
    by_cases hdup : db.mois.any (fun m => m.nom = newName)
    · constructor
      · intro _; simp [hdup]
      · intro h; simp [hdup] at h
    · simp only [hdup, Bool.false_eq_true, if_false]
      cases hins : insertDupCopies db.nextMoisId failAt
          (db_get_depenses_by_mois db origId) 0
          { db with mois := db.mois ++ [⟨db.nextMoisId, newName, om.salaire⟩],
                    nextMoisId := db.nextMoisId + 1 } with
      | none => exact ⟨fun _ => rfl, fun h => by simp at h⟩
      | some db2 =>
        have h2 := insertDupCopies_ok db.nextMoisId failAt _ 0 _ db2 hins
        refine ⟨fun h => absurd rfl h, fun _ => ?_⟩
        constructor
        · rw [h2]; simp
        constructor
        · rw [h2]
          simp [dupRows_length, db_get_depenses_by_mois]
        · exact ⟨om, rfl, by rw [h2]⟩

/-- A two-table example store: one month `"Jan"` with one record. -/
def dbDupEx : DbState :=
  { mois := [⟨1, "Jan", 100⟩],
    deps := [⟨1, 1, "Loyer", 50, "Logement", "01/01/2024", false, true, false, true⟩],
    nextMoisId := 2, nextDepId := 2, config := [] }

/-- Witness for C1: duplicating onto the taken name `"Jan"` leaves the
store untouched; duplicating onto `"Feb"` adds one month row and one
record row. -/
theorem duplicate_mois_all_or_nothing_witness :
    (db_duplicate_mois none dbDupEx 1 "Jan").1 = dbDupEx ∧
    (db_duplicate_mois none dbDupEx 1 "Feb").1.mois.length = dbDupEx.mois.length + 1 ∧
    (db_duplicate_mois none dbDupEx 1 "Feb").1.deps.length = dbDupEx.deps.length + 1 := by
  have hfail := (duplicate_mois_all_or_nothing dbDupEx 1 "Jan" none).1
  have hok := (duplicate_mois_all_or_nothing dbDupEx 1 "Feb" none).2
  refine ⟨hfail (by decide), (hok (by decide)).1, ?_⟩
  have h := (hok (by decide)).2.1
  rw [h]; decide

/-! ### C8 — record validation is total and its error conditions -/

/-- C8: `validate_expense_data` always returns a result (it is a total
function of its three string inputs; the amount parse accepts both `.` and
`,` because commas are replaced by dots before parsing, see
`parseAmountField`).  The result is invalid exactly when the amount string
fails to parse or parses to a negative number; an empty or missing
category is replaced by the default `"Autres"`; the label never
contributes an error (an empty label is accepted), and the validated
amount is the parsed value with fallback `0`. -/
theorem validate_expense_data_spec (nom montant categorie : String) :
    ((validate_expense_data nom montant categorie).isValid = false ↔
      parseAmountField montant = none ∨
        ∃ q, parseAmountField montant = some q ∧ q < 0) ∧
    (validate_expense_data nom montant categorie).categorieV =
      (if categorie = "" then "Autres" else categorie) ∧
    (validate_expense_data nom montant categorie).errors =
      (validate_expense_data "" montant categorie).errors ∧
    (validate_expense_data nom montant categorie).montantV =
      (match parseAmountField montant with
       | some q => q
       | none => 0) := by
  refine ⟨?_, ?_, ?_, ?_⟩
  · cases hp : parseAmountField montant with
    | none => simp [validate_expense_data, ExpenseValidation.isValid, hp]
    | some q =>
      by_cases hq : q < 0
      · constructor
        · intro _; exact Or.inr ⟨q, rfl, hq⟩
        · intro _; simp [validate_expense_data, ExpenseValidation.isValid, hp, hq]
      · constructor
        · intro h
          rw [show (validate_expense_data nom montant categorie).isValid = true from by
            simp [validate_expense_data, ExpenseValidation.isValid, hp, hq]] at h
          cases h
        · rintro (h | ⟨q2, hq2, hneg⟩)
          · cases h
          · have e : q = q2 := by injection hq2
            exact absurd (e ▸ hneg) hq
  · cases hp : parseAmountField montant <;> simp [validate_expense_data, hp]
  · rfl
  · cases hp : parseAmountField montant <;> simp [validate_expense_data, hp]

/-! ### C9 — add accepts an unparseable amount, storing 0 -/

/-- C9: with an active month, `add_expense` called with an amount string
that fails numeric validation still returns success: the invalid amount is
only logged, the record is persisted (one new store row) and appended to
the canonical list with the validator's fallback amount `0.0`. -/
theorem add_expense_invalid_amount_ok (st : ModelState) (m : Mois)
    (nom montantStr categorie : String) (e b f : Bool)
    (hm : st.moisActuel = some m)
    (hp : parseAmountField montantStr = none) :
    (add_expense false nom montantStr categorie e b f st).2 = PyResult.ok ∧
    (add_expense false nom montantStr categorie e b f st).1.depenses =
      st.depenses ++ [st.nextRef] ∧
    ((add_expense false nom montantStr categorie e b f st).1.heap st.nextRef).montant = 0 ∧
    (add_expense false nom montantStr categorie e b f st).1.db.deps.length =
      st.db.deps.length + 1 ∧
    ((add_expense false nom montantStr categorie e b f st).1.db.deps.map
        (fun r => r.montant)).getLast? = some 0 := by
  have hv : (validate_expense_data nom montantStr categorie).montantV = 0 := by
    simp [validate_expense_data, hp]
  refine ⟨?_, ?_, ?_, ?_, ?_⟩ <;>
    simp [add_expense, hm, db_create_depense, hupd, hv, depInsertRow, notifyEv]

/-- A default-valued heap for example states. -/
def exHeap : ℕ → Depense := fun _ => {}

/-- An example model state: month `"Jan"` of `dbDupEx` active, empty lists. -/
def exMoisSt : ModelState :=
  { db := dbDupEx, heap := exHeap, nextRef := 0, moisActuel := some ⟨1, "Jan", 100⟩,
    depenses := [], displayed := [], searchTerm := "", sortKey := "date_desc",
    events := [] }

/-- Witness for C9: adding with the amount string `"abc"` succeeds and the
new record carries amount `0`. -/
theorem add_expense_invalid_amount_ok_witness :
    (add_expense false "Taxi" "abc" "" false false false exMoisSt).2 = PyResult.ok ∧
    ((add_expense false "Taxi" "abc" "" false false false exMoisSt).1.heap 0).montant = 0 := by
  have h := add_expense_invalid_amount_ok exMoisSt ⟨1, "Jan", 100⟩ "Taxi" "abc" ""
    false false false rfl (by decide)
  exact ⟨h.1, h.2.2.1⟩

/-! ### C4 — add appends; projection appended iff the predicate matches -/

/-- C4: with an active month, a successful `add_expense` appends the new
record reference at the end of the canonical list, and appends it at the
end of the displayed list exactly when the record matches the current
search predicate (an empty stored term always matches); the rest of the
displayed list is untouched — no re-sorting happens. -/
theorem add_expense_append_spec (st : ModelState) (m : Mois)
    (nom montantStr categorie : String) (e b f : Bool)
    (hm : st.moisActuel = some m) :
    (add_expense false nom montantStr categorie e b f st).2 = PyResult.ok ∧
    (add_expense false nom montantStr categorie e b f st).1.depenses =
      st.depenses ++ [st.nextRef] ∧
    (add_expense false nom montantStr categorie e b f st).1.displayed =
      (if st.searchTerm = "" ||
          pyIn st.searchTerm (pyLower (validate_expense_data nom montantStr categorie).nomV) then
        st.displayed ++ [st.nextRef]
      else st.displayed) ∧
    (add_expense false nom montantStr categorie e b f st).1.heap st.nextRef =
      { id := some st.db.nextDepId,
        nom := (validate_expense_data nom montantStr categorie).nomV,
        montant := (validate_expense_data nom montantStr categorie).montantV,
        categorie := (validate_expense_data nom montantStr categorie).categorieV,
        effectue := e, emprunte := b, est_fixe := f } := by
  refine ⟨?_, ?_, ?_, ?_⟩ <;>
    simp [add_expense, hm, db_create_depense, hupd, notifyEv]

/-- An example state with a nonempty projection and the search term `"ta"`. -/
def exStFilt : ModelState :=
  { db := dbDupEx, heap := exHeap, nextRef := 7, moisActuel := some ⟨1, "Jan", 100⟩,
    depenses := [5], displayed := [5], searchTerm := "ta", sortKey := "date_desc",
    events := [] }

/-- Witness for C4: under search term `"ta"`, adding `"Taxi"` appends to
the projection's end, adding `"Chat"` does not touch the projection. -/
theorem add_expense_append_spec_witness :
    (add_expense false "Taxi" "3" "" false false false exStFilt).1.displayed = [5, 7] ∧
    (add_expense false "Chat" "3" "" false false false exStFilt).1.displayed = [5] := by
  have h1 := (add_expense_append_spec exStFilt ⟨1, "Jan", 100⟩ "Taxi" "3" ""
    false false false rfl).2.2.1
  have h2 := (add_expense_append_spec exStFilt ⟨1, "Jan", 100⟩ "Chat" "3" ""
    false false false rfl).2.2.1
  rw [h1, h2]
  constructor <;> decide

/-! ### C3 — a failed store write during update (claim corrected) -/

/-- An example state whose single record (heap object `0`, store row `1`)
is shared by the canonical and displayed lists. -/
def exUpdSt : ModelState :=
  { db := dbDupEx,
    heap := hupd exHeap 0
      ⟨some 1, "a", 1, "Autres", "01/01/2024", false, false, false, false⟩,
    nextRef := 1, moisActuel := some ⟨1, "Jan", 100⟩,
    depenses := [0], displayed := [0], searchTerm := "", sortKey := "date_desc",
    events := [] }

/-- Counterexample to C3 as stated: updating record `"a"` to label `"b"` (empty
amount string, which validates to `0`) while the store write fails returns an error, yet the canonical entry does not
keep its pre-call values — its label is already `"b"`. -/
theorem update_expense_failed_write_counterexample :
    (update_expense true 0 "b" "" "02/01/2024" "Loisirs" false false false exUpdSt).2 =
      PyResult.err ∧
    ((update_expense true 0 "b" "" "02/01/2024" "Loisirs" false false false
        exUpdSt).1.heap 0).nom = "b" := by
  constructor <;> rfl

/-- C3 as amended: when the store write fails, `update_expense` returns an
error and the store is untouched, but the canonical entry has already been
mutated in place to the new validated field values (the mutation precedes
the store write and is not rolled back); all other heap objects and both
reference lists are unchanged. -/
theorem update_expense_failed_write_spec (st : ModelState)
    (index targetRef origRef : ℕ)
    (nom montantStr date categorie : String) (e b f : Bool)
    (ht : st.displayed[index]? = some targetRef)
    (ho : st.depenses.find? (fun r => (st.heap r).id = (st.heap targetRef).id) =
      some origRef)
    (hv : (validate_expense_data nom montantStr categorie).isValid = true) :
    (update_expense true index nom montantStr date categorie e b f st).2 =
      PyResult.err ∧
    (update_expense true index nom montantStr date categorie e b f st).1.db = st.db ∧
    (update_expense true index nom montantStr date categorie e b f st).1.depenses =
      st.depenses ∧
    (update_expense true index nom montantStr date categorie e b f st).1.displayed =
      st.displayed ∧
    (update_expense true index nom montantStr date categorie e b f st).1.heap origRef =
      applyUpdate (validate_expense_data nom montantStr categorie) date e b f
        (st.heap origRef) ∧
    ∀ r, r ≠ origRef →
      (update_expense true index nom montantStr date categorie e b f st).1.heap r =
        st.heap r := by
  refine ⟨?_, ?_, ?_, ?_, ?_, ?_⟩
  · simp [update_expense, ht, ho, hv, db_update_depense]
  · simp [update_expense, ht, ho, hv, db_update_depense]
  · simp [update_expense, ht, ho, hv, db_update_depense]
  · simp [update_expense, ht, ho, hv, db_update_depense]
  · simp [update_expense, ht, ho, hv, db_update_depense, hupd]
  · intro r hr
    simp [update_expense, ht, ho, hv, db_update_depense, hupd, hr]

/-- Witness for the amended C3 at a concrete state: the failed write leaves
the store alone but the canonical object now carries the new values. -/
theorem update_expense_failed_write_spec_witness :
    (update_expense true 0 "b" "" "02/01/2024" "Loisirs" false false false
        exUpdSt).1.db = exUpdSt.db ∧
    (update_expense true 0 "b" "" "02/01/2024" "Loisirs" false false false
        exUpdSt).1.heap 0 =
      applyUpdate (validate_expense_data "b" "" "Loisirs") "02/01/2024"
        false false false (exUpdSt.heap 0) := by
  have h := update_expense_failed_write_spec exUpdSt 0 0 0 "b" "" "02/01/2024"
    "Loisirs" false false false (by decide) (by decide) (by decide)
  exact ⟨h.2.1, h.2.2.2.2.1⟩

/-! ### C5 — load resets the search term but not the sort key (corrected) -/

/-- The sort key set by `BudgetModel.__init__` (`_current_sort_key`). -/
def defaultSortKey : String := "date_desc"

theorem allocDeps_lt (ds : List Depense) :
    ∀ (h : ℕ → Depense) (next r : ℕ), r < next → (allocDeps h next ds).1 r = h r := by
  induction ds with
  | nil => intro h next r _; rfl
  | cons d ds ih =>
    intro h next r hr
    have := ih (hupd h next d) (next + 1) r (Nat.lt_succ_of_lt hr)
    rw [allocDeps, this, hupd]
    simp [Nat.ne_of_lt hr]

theorem allocDeps_map (ds : List Depense) :
    ∀ (h : ℕ → Depense) (next : ℕ),
      ((allocDeps h next ds).2.2).map (allocDeps h next ds).1 = ds := by
  induction ds with
  | nil => intro h next; rfl
  | cons d ds ih =>
    intro h next
    have h1 := allocDeps_lt ds (hupd h next d) (next + 1) next (Nat.lt_succ_self next)
    simp only [allocDeps, List.map_cons, h1, hupd, if_pos rfl, ih]
    simp

/-- Counterexample to C5 as stated: a successful load does **not** reset
the sort key to the default — with the key `"montant_asc"` in effect,
loading `"Jan"` succeeds and leaves the key `"montant_asc"`, not
`defaultSortKey`. -/
theorem load_mois_keeps_sort_key_counterexample :
    (load_mois "Jan" { exMoisSt with sortKey := "montant_asc" }).2 = PyResult.ok ∧
    ((load_mois "Jan" { exMoisSt with sortKey := "montant_asc" }).1).sortKey =
      "montant_asc" ∧
    "montant_asc" ≠ defaultSortKey := by
  refine ⟨by rfl, by rfl, by decide⟩

/-- C5 as amended: a successful `load_mois` replaces the canonical list
wholesale with the period's stored records (as fresh objects), resets the
search term to empty, leaves the sort key unchanged (it is not reset to
the default), and fully rebuilds the projection from the new canonical
list with that unchanged key and the empty term. -/
theorem load_mois_spec (st : ModelState) (nom : String) (m : MoisRow)
    (hm : db_get_mois_by_name st.db nom = some m) :
    (load_mois nom st).2 = PyResult.ok ∧
    (load_mois nom st).1.searchTerm = "" ∧
    (load_mois nom st).1.sortKey = st.sortKey ∧
    (load_mois nom st).1.moisActuel = some ⟨m.id, m.nom, m.salaire⟩ ∧
    (load_mois nom st).1.depenses.map (load_mois nom st).1.heap =
      db_get_depenses_by_mois st.db m.id ∧
    (load_mois nom st).1.displayed =
      displayedOf (load_mois nom st).1.heap st.sortKey "" (load_mois nom st).1.depenses := by
  refine ⟨?_, ?_, ?_, ?_, ?_, ?_⟩ <;>
    simp [load_mois, hm, refreshDisplayed, notifyEv, db_save_config, allocDeps_map]

/-- Witness for the amended C5 at a concrete state and month. -/
theorem load_mois_spec_witness :
    (load_mois "Jan" { exMoisSt with sortKey := "montant_asc" }).2 = PyResult.ok ∧
    (load_mois "Jan" { exMoisSt with sortKey := "montant_asc" }).1.searchTerm = "" ∧
    (load_mois "Jan" { exMoisSt with sortKey := "montant_asc" }).1.sortKey =
      "montant_asc" := by
  have h := load_mois_spec { exMoisSt with sortKey := "montant_asc" } "Jan"
    ⟨1, "Jan", 100⟩ (by rfl)
  exact ⟨h.1, h.2.1, h.2.2.1⟩

/-! ### C6 — events emitted by whole-period operations (corrected) -/

/-- The number of `notify_observers` calls a **successful** run of each
period operation performs, as the source actually behaves: `create` and
`rename` notify once (a rename to the identical name notifies zero
times), `load` notifies twice (`display_updated`, `mois_loaded`), `delete`
notifies twice when the deleted month is the active one and once
otherwise, and `duplicate` notifies three times (the inner load's two
events plus `mois_duplicated`) when the source month row exists, once
otherwise. -/
def expectedEvents (o : PmOp) (st : ModelState) : ℕ :=
  match o with
  | PmOp.createP _ _ _ => 1
  | PmOp.loadP _ => 2
  | PmOp.deleteP n _ =>
    match st.moisActuel with
    | some m => if m.nom = n then 2 else 1
    | none => 1
  | PmOp.renameP n _ =>
    match st.moisActuel with
    | some m => if m.nom = pyStrip n then 0 else 1
    | none => 0
  | PmOp.dupP _ _ =>
    match st.moisActuel with
    | some m => if (db_get_mois_by_id st.db m.id).isSome then 3 else 1
    | none => 0

theorem notifyEv_events (e : String) (st : ModelState) :
    (notifyEv e st).events = st.events ++ [e] := rfl

theorem load_mois_ok_events (nom : String) (st : ModelState) (m : MoisRow)
    (hm : db_get_mois_by_name st.db nom = some m) :
    (load_mois nom st).1.events = st.events ++ ["display_updated", "mois_loaded"] := by
  simp [load_mois, hm, refreshDisplayed, notifyEv, db_save_config]

/-- Counterexample to C6 as stated: at `exMoisSt` (month `"Jan"` active), a
successful delete of the active month notifies twice, and a successful
duplicate notifies three times — not exactly once. -/
theorem period_op_single_event_counterexample :
    (runPm (PmOp.deleteP "Jan" false) exMoisSt).2 = PyResult.ok ∧
    (runPm (PmOp.deleteP "Jan" false) exMoisSt).1.events.length = 2 ∧
    (runPm (PmOp.dupP "Feb" none) exMoisSt).2 = PyResult.ok ∧
    (runPm (PmOp.dupP "Feb" none) exMoisSt).1.events.length = 3 := by
  refine ⟨by rfl, by rfl, by rfl, by rfl⟩

theorem find?_append_none {α : Type} (p : α → Bool) (l1 l2 : List α)
    (h : l1.find? p = none) : (l1 ++ l2).find? p = l2.find? p := by
  induction l1 with
  | nil => simp
  | cons a t ih =>
    cases hp : p a with
    | true => simp [List.find?, hp] at h
    | false =>
      simp only [List.find?, hp] at h
      simpa [List.find?, hp] using ih h

/-- C6 as amended: on success, `create_mois` and `rename_mois` notify
exactly once (zero times for a rename to the identical name), `load_mois`
exactly twice, `delete_mois` twice when deleting the active month and once
otherwise, and `duplicate_mois` three times when the source month row
exists (once otherwise) — see `expectedEvents`. -/
theorem period_op_event_counts (o : PmOp) (st : ModelState)
    (hok : (runPm o st).2 = PyResult.ok) :
    (runPm o st).1.events.length = st.events.length + expectedEvents o st := by
  cases o with
  | createP n s fail =>
    simp only [runPm, model_create_mois] at hok ⊢
    by_cases hv : (validate_mois_data n s).isValid
    · rcases hc : db_create_mois fail st.db (validate_mois_data n s).nomV
        (validate_mois_data n s).salaireV with ⟨db2, e⟩
      cases e with
      | error u => simp [hv, hc] at hok
      | ok mid => simp [hv, hc, notifyEv, expectedEvents]
    · have hv2 : (validate_mois_data n s).isValid = false := by
        revert hv; cases (validate_mois_data n s).isValid <;> simp
      simp [hv2] at hok
  | loadP n =>
    simp only [runPm] at hok ⊢
    cases hm : db_get_mois_by_name st.db n with
    | none => simp [load_mois, hm] at hok
    | some m =>
      rw [load_mois_ok_events n st m hm]
      simp [expectedEvents]
  | deleteP n fail =>
    simp only [runPm, model_delete_mois] at hok ⊢
    cases fail with
    | true => simp [db_delete_mois] at hok
    | false =>
      cases hm : db_get_mois_by_name st.db n with
      | none => simp [db_delete_mois, hm] at hok
      | some mrow =>
        cases hma : st.moisActuel with
        | none => simp [db_delete_mois, hm, hma, notifyEv, expectedEvents]
        | some m =>
          by_cases hn : m.nom = n
          · simp [db_delete_mois, hm, hma, hn, notifyEv, expectedEvents]
          · simp [db_delete_mois, hm, hma, hn, notifyEv, expectedEvents]
  | renameP n fail =>
    simp only [runPm, model_rename_mois] at hok ⊢
    cases hma : st.moisActuel with
    | none => simp [hma] at hok
    | some m =>
      by_cases hn : m.nom = pyStrip n
      · simp [hma, hn, expectedEvents]
      · by_cases he : pyStrip n = ""
        · have hn2 : ¬m.nom = "" := fun hcontr => hn (by rw [hcontr, he])
          simp [hma, hn, he, hn2] at hok
        · rcases hc : db_update_mois_name fail st.db m.id (pyStrip n) with ⟨db2, e⟩
          cases e with
          | error u => simp [hma, hn, he, hc] at hok
          | ok u => simp [hma, hn, he, hc, notifyEv, expectedEvents]
  | dupP n failAt =>
    simp only [runPm, model_duplicate_mois] at hok ⊢
    cases hma : st.moisActuel with
    | none => simp [hma] at hok
    | some m =>
      by_cases he : pyStrip n = ""
      · simp [hma, he] at hok
      · cases hmid : db_get_mois_by_id st.db m.id with
        | none =>
          simp [db_duplicate_mois, hmid, hma, he, notifyEv, expectedEvents]
        | some om =>
          by_cases hcol : st.db.mois.any (fun x => x.nom = pyStrip n) = true
          · simp [db_duplicate_mois, hmid, hcol, hma, he] at hok
          · have hcol2 : st.db.mois.any (fun x => x.nom = pyStrip n) = false := by
              revert hcol; cases st.db.mois.any (fun x => x.nom = pyStrip n) <;> simp
            cases hins : insertDupCopies st.db.nextMoisId failAt
                (db_get_depenses_by_mois st.db m.id) 0
                { st.db with
                    mois := st.db.mois ++ [⟨st.db.nextMoisId, pyStrip n, om.salaire⟩],
                    nextMoisId := st.db.nextMoisId + 1 } with
            | none => simp [db_duplicate_mois, hmid, hcol2, hins, hma, he] at hok
            | some db2 =>
              have hsh := insertDupCopies_ok st.db.nextMoisId failAt _ 0 _ db2 hins
              have hnone : st.db.mois.find? (fun x => decide (x.nom = pyStrip n)) = none := by
                apply List.find?_eq_none.mpr
                intro x hx
                have hall := List.any_eq_false.mp hcol2 x hx
                simpa using hall
              have hfind : db_get_mois_by_name db2 (pyStrip n) =
                  some (⟨st.db.nextMoisId, pyStrip n, om.salaire⟩ : MoisRow) := by
                rw [hsh]
                show (st.db.mois ++ [(⟨st.db.nextMoisId, pyStrip n, om.salaire⟩ : MoisRow)]).find?
                    (fun x => decide (x.nom = pyStrip n)) = _
                rw [find?_append_none _ _ _ hnone]
                simp [List.find?]
              have hload := load_mois_ok_events (pyStrip n)
                { db := db2, heap := st.heap, nextRef := st.nextRef,
                  moisActuel := some m, depenses := st.depenses,
                  displayed := st.displayed, searchTerm := st.searchTerm,
                  sortKey := st.sortKey, events := st.events }
                ⟨st.db.nextMoisId, pyStrip n, om.salaire⟩ hfind
              simp [db_duplicate_mois, hmid, hcol2, hins, hma, he, notifyEv,
                expectedEvents, hload]

/-- Witness for the amended C6: at `exMoisSt`, a successful rename
notifies once and a successful load notifies twice. -/
theorem period_op_event_counts_witness :
    (runPm (PmOp.renameP "Feb" false) exMoisSt).1.events.length =
      exMoisSt.events.length + 1 ∧
    (runPm (PmOp.loadP "Jan") exMoisSt).1.events.length =
      exMoisSt.events.length + 2 := by
  have h1 := period_op_event_counts (PmOp.renameP "Feb" false) exMoisSt (by rfl)
  have h2 := period_op_event_counts (PmOp.loadP "Jan") exMoisSt (by rfl)
  rw [h1, h2]
  constructor <;> rfl

/-! ### C7 — bulk import seeds the salary with the credit sum -/

/-- The rows inserted by the loop of `import_new_mois`, with their
autoincrement ids, in batch order (`est_fixe` forced to the SQL default
`false` because the 8-column insert omits it). -/
def importRows (startId newMid : ℕ) : List Depense → List DepRow
  | [] => []
  | d :: ds => depImportRow startId newMid d :: importRows (startId + 1) newMid ds

theorem importRows_length (newMid : ℕ) :
    ∀ (ds : List Depense) (startId : ℕ),
      (importRows startId newMid ds).length = ds.length := by
  intro ds
  induction ds with
  | nil => intro startId; rfl
  | cons d ds ih => intro startId; simp [importRows, ih]

theorem insertImportCopies_ok (newMid : ℕ) (failAt : Option ℕ) :
    ∀ (ds : List Depense) (k : ℕ) (db db2 : DbState),
      insertImportCopies newMid failAt ds k db = some db2 →
      db2 = { db with deps := db.deps ++ importRows db.nextDepId newMid ds,
                      nextDepId := db.nextDepId + ds.length } := by
  intro ds
  induction ds with
  | nil =>
    intro k db db2 h
    simp only [insertImportCopies, Option.some.injEq] at h
    simp [← h, importRows]
  | cons d ds ih =>
    intro k db db2 h
    simp only [insertImportCopies] at h
    by_cases hf : failAt = some k
    · simp [hf] at h
    · simp only [hf, if_false] at h
      have h2 := ih (k + 1) _ db2 h
      rw [h2]
      simp [importRows, List.append_assoc]
      omega

/-- `import_new_mois` is one transaction: an error leaves the store
unchanged; success appends exactly the month row (with the supplied
salary) and one imported row per supplied record. -/
theorem db_import_new_mois_spec (failAt : Option ℕ) (db : DbState) (nom : String)
    (salaire : ℚ) (deps : List Depense) :
    (∀ u, (db_import_new_mois failAt db nom salaire deps).2 = Except.error u →
      (db_import_new_mois failAt db nom salaire deps).1 = db) ∧
    (∀ nid, (db_import_new_mois failAt db nom salaire deps).2 = Except.ok nid →
      nid = db.nextMoisId ∧
      (db_import_new_mois failAt db nom salaire deps).1 =
        { db with mois := db.mois ++ [⟨db.nextMoisId, nom, salaire⟩],
                  nextMoisId := db.nextMoisId + 1,
                  deps := db.deps ++ importRows db.nextDepId db.nextMoisId deps,
                  nextDepId := db.nextDepId + deps.length }) := by
  unfold db_import_new_mois
  by_cases hdup : db.mois.any (fun m => m.nom = nom)
  · constructor
    · intro u _; simp [hdup]
    · intro nid h; simp [hdup] at h
  · simp only [hdup, Bool.false_eq_true, if_false]
    cases hins : insertImportCopies db.nextMoisId failAt deps 0
        { db with mois := db.mois ++ [⟨db.nextMoisId, nom, salaire⟩],
                  nextMoisId := db.nextMoisId + 1 } with
    | none =>
      constructor
      · intro u _; rfl
      · intro nid h; simp at h
    | some db2 =>
      have h2 := insertImportCopies_ok db.nextMoisId failAt _ 0 _ db2 hins
      constructor
      · intro u h; simp at h
      · intro nid h
        refine ⟨by simpa using h.symm, ?_⟩
        rw [h2]

/-- C7: whenever `import_from_excel` reports success, the committed batch
is exactly the validated (non-skipped) rows: the new month row carries as
its salary the sum of the amounts of exactly the credit-flagged validated
rows (`creditSum`), and one record row is persisted per validated row —
all in the single `import_new_mois` transaction, whose failure leaves the
store untouched. -/
theorem import_from_excel_spec (failAt : Option ℕ) (hasDebit hasCredit : Bool)
    (rows : List XRow) (newName : String) (db : DbState) :
    ((import_from_excel failAt hasDebit hasCredit rows newName db).2 = false →
      (import_from_excel failAt hasDebit hasCredit rows newName db).1 = db) ∧
    ((import_from_excel failAt hasDebit hasCredit rows newName db).2 = true →
      (import_from_excel failAt hasDebit hasCredit rows newName db).1.mois =
        db.mois ++ [⟨db.nextMoisId, newName,
          creditSum (processExcelRows hasDebit hasCredit rows)⟩] ∧
      (import_from_excel failAt hasDebit hasCredit rows newName db).1.deps =
        db.deps ++ importRows db.nextDepId db.nextMoisId
          (processExcelRows hasDebit hasCredit rows) ∧
      (import_from_excel failAt hasDebit hasCredit rows newName db).1.deps.length =
        db.deps.length + (processExcelRows hasDebit hasCredit rows).length) := by
  unfold import_from_excel
  by_cases hemp : rows.isEmpty
  · simp [hemp]
  · simp only [hemp, Bool.false_eq_true, if_false]
    have hspec := db_import_new_mois_spec failAt db newName
      (creditSum (processExcelRows hasDebit hasCredit rows))
      (processExcelRows hasDebit hasCredit rows)
    rcases hc : db_import_new_mois failAt db newName
        (creditSum (processExcelRows hasDebit hasCredit rows))
        (processExcelRows hasDebit hasCredit rows) with ⟨db2, e⟩
    cases e with
    | error u =>
      rw [hc] at hspec
      constructor
      · intro _; exact hspec.1 u rfl
      · intro h; simp [hc] at h
    | ok nid =>
      rw [hc] at hspec
      have hsh := (hspec.2 nid rfl).2
      dsimp only at hsh
      constructor
      · intro h; simp [hc] at h
      · intro _
        refine ⟨?_, ?_, ?_⟩ <;> simp [hc, hsh, importRows_length]

/-- A three-row example sheet: one credit of 20, one debit of 10, and one
row with an empty label (skipped by validation). -/
def exImpRows : List XRow :=
  [⟨"Salaire", "01/01/2024", Cell.empty, Cell.num 20⟩,
   ⟨"Courses", "02/01/2024", Cell.num 10, Cell.empty⟩,
   ⟨"", "03/01/2024", Cell.num 5, Cell.empty⟩]

/-- Witness for C7: importing `exImpRows` succeeds, persists exactly the
two validated rows, and seeds the month's salary with the credit sum. -/
theorem import_from_excel_spec_witness :
    (import_from_excel none true true exImpRows "Imp" dbDupEx).2 = true ∧
    (import_from_excel none true true exImpRows "Imp" dbDupEx).1.deps.length =
      dbDupEx.deps.length + 2 ∧
    (import_from_excel none true true exImpRows "Imp" dbDupEx).1.mois =
      dbDupEx.mois ++ [⟨dbDupEx.nextMoisId, "Imp",
        creditSum (processExcelRows true true exImpRows)⟩] := by
  have h := import_from_excel_spec none true true exImpRows "Imp" dbDupEx
  have hok : (import_from_excel none true true exImpRows "Imp" dbDupEx).2 = true := by rfl
  refine ⟨hok, ?_, (h.2 hok).1⟩
  rw [(h.2 hok).2.2]
  rfl

/-! ### C10 — JSON import discards the `est_fixe` flag -/

theorem importRows_est_fixe (newMid : ℕ) :
    ∀ (ds : List Depense) (startId : ℕ) (r : DepRow),
      r ∈ importRows startId newMid ds → r.est_fixe = false := by
  intro ds
  induction ds with
  | nil => intro startId r h; simp [importRows] at h
  | cons d ds ih =>
    intro startId r h
    rcases List.mem_cons.mp h with h1 | h2
    · rw [h1]; rfl
    · exact ih (startId + 1) r h2

/-- C10: `import_from_json` discards the `fixed` flag.  The `Depense`
built from a file entry never reads `est_fixe` (the dataclass default
`False` applies), and the 8-column insert of `import_new_mois` omits the
column (SQL default `0`), so on success every record row the import
creates carries `est_fixe = false` — even when the corresponding file
entry has `est_fixe = true`. -/
theorem import_from_json_discards_est_fixe (failAt : Option ℕ) (today : String)
    (f : JFile) (newName : String) (db : DbState)
    (hok : (import_from_json failAt today f newName db).2 = true) :
    (import_from_json failAt today f newName db).1.deps =
      db.deps ++ importRows db.nextDepId db.nextMoisId
        (f.depenses.map (jEntryToDep today)) ∧
    (∀ r ∈ importRows db.nextDepId db.nextMoisId (f.depenses.map (jEntryToDep today)),
      r.est_fixe = false) ∧
    (∀ e : JEntry, (jEntryToDep today e).est_fixe = false) := by
  refine ⟨?_, importRows_est_fixe _ _ _, fun e => rfl⟩
  unfold import_from_json at hok ⊢
  by_cases hkey : f.hasDepensesKey
  · simp only [hkey, Bool.not_true, Bool.false_eq_true, if_false] at hok ⊢
    have hspec := db_import_new_mois_spec failAt db newName (f.salaire.getD 0)
      (f.depenses.map (jEntryToDep today))
    rcases hc : db_import_new_mois failAt db newName (f.salaire.getD 0)
        (f.depenses.map (jEntryToDep today)) with ⟨db2, e⟩
    cases e with
    | error u => simp [hc] at hok
    | ok nid =>
      rw [hc] at hspec
      have hsh := (hspec.2 nid rfl).2
      dsimp only at hsh
      simp [hc, hsh]
  · simp [hkey] at hok

/-- An example JSON file whose single entry carries `est_fixe = true`. -/
def exJFile : JFile :=
  { salaire := some 100, hasDepensesKey := true,
    depenses := [{ nom := some "Loyer", montant := some 50, categorie := none,
                   date_depense := some "01/01/2024", est_credit := some false,
                   effectue := some true, emprunte := some false,
                   est_fixe := some true }] }

/-- Witness for C10: importing `exJFile` (entry flagged `est_fixe = true`)
into `dbDupEx` succeeds, and the flags column reads `[true, false]` — the
pre-existing row keeps its flag, the imported row gets `false`. -/
theorem import_from_json_discards_est_fixe_witness :
    (import_from_json none "05/10/2024" exJFile "Copie" dbDupEx).2 = true ∧
    ((import_from_json none "05/10/2024" exJFile "Copie" dbDupEx).1.deps.map
      (fun r => r.est_fixe)) = [true, false] := by
  have hok : (import_from_json none "05/10/2024" exJFile "Copie" dbDupEx).2 = true := by rfl
  have h := import_from_json_discards_est_fixe none "05/10/2024" exJFile "Copie"
    dbDupEx hok
  refine ⟨hok, ?_⟩
  rw [h.1]
  rfl

/-! ### C2 — after any full rebuild, projection = sort(filter(canonical)) -/

theorem runFin_projection (fop : FinOp) (st : ModelState)
    (hfin : finOk fop st = true)
    (hdate : dateSortOk (runFin fop st) = true) :
    (runFin fop st).displayed =
      pySortRefs (runFin fop st).heap (runFin fop st).sortKey
        (pyFilter (runFin fop st).heap (runFin fop st).searchTerm
          (runFin fop st).depenses) := by
  cases fop with
  | setTerm t =>
    have hc := hdate
    simp only [dateSortOk, runFin, filter_depenses_by_name, refreshDisplayed, notifyEv,
      Bool.not_eq_true'] at hc
    simp [runFin, filter_depenses_by_name, refreshDisplayed, notifyEv, displayedOf, hc]
  | setKey k =>
    have hc := hdate
    simp only [dateSortOk, runFin, sort_depenses, refreshDisplayed, notifyEv,
      Bool.not_eq_true'] at hc
    simp [runFin, sort_depenses, refreshDisplayed, notifyEv, displayedOf, hc]
  | loadM n =>
    simp only [finOk] at hfin
    rcases Option.isSome_iff_exists.mp hfin with ⟨m, hm⟩
    have hc := hdate
    simp only [dateSortOk, runFin, load_mois, hm, refreshDisplayed, notifyEv,
      db_save_config, Bool.not_eq_true'] at hc
    simp [runFin, load_mois, hm, refreshDisplayed, notifyEv, db_save_config,
      displayedOf, hc]

theorem runFin_projection_skipped (fop : FinOp) (st : ModelState)
    (hfin : finOk fop st = true)
    (hdate : dateSortOk (runFin fop st) = false) :
    (runFin fop st).displayed =
      pyFilter (runFin fop st).heap (runFin fop st).searchTerm
        (runFin fop st).depenses := by
  cases fop with
  | setTerm t =>
    have hc := hdate
    simp only [dateSortOk, runFin, filter_depenses_by_name, refreshDisplayed, notifyEv,
      Bool.not_eq_false'] at hc
    simp [runFin, filter_depenses_by_name, refreshDisplayed, notifyEv, displayedOf, hc]
  | setKey k =>
    have hc := hdate
    simp only [dateSortOk, runFin, sort_depenses, refreshDisplayed, notifyEv,
      Bool.not_eq_false'] at hc
    simp [runFin, sort_depenses, refreshDisplayed, notifyEv, displayedOf, hc]
  | loadM n =>
    simp only [finOk] at hfin
    rcases Option.isSome_iff_exists.mp hfin with ⟨m, hm⟩
    have hc := hdate
    simp only [dateSortOk, runFin, load_mois, hm, refreshDisplayed, notifyEv,
      db_save_config, Bool.not_eq_false'] at hc
    simp [runFin, load_mois, hm, refreshDisplayed, notifyEv, db_save_config,
      displayedOf, hc]

/-- Two record additions used by the C2 witness. -/
def opsC2 : List RecOp :=
  [RecOp.addE "Bravo" "" "" false false false false,
   RecOp.addE "alpha" "" "" false false false false]

/-- A loaded-looking example state: two dated records (older first in
canonical order) under the default `date_desc` sort key. -/
def exDateSt : ModelState :=
  { db := dbDupEx,
    heap := hupd (hupd exHeap 0
        ⟨some 1, "a", 1, "Autres", "01/01/2024", false, false, false, false⟩)
      1 ⟨some 2, "b", 1, "Autres", "02/01/2024", false, false, false, false⟩,
    nextRef := 2, moisActuel := some ⟨1, "Jan", 100⟩,
    depenses := [0, 1], displayed := [0, 1], searchTerm := "",
    sortKey := "date_desc", events := [] }

/-- One plain `add_expense`, which creates a record with the dataclass
default empty `date_depense`. -/
def opsBadDate : List RecOp :=
  [RecOp.addE "c" "" "" false false false false]

/-- Counterexample to C2 as stated: after one ordinary add (whose record
carries the default empty date) followed by `sort_depenses "date_desc"`,
the projection is the filtered list in canonical order `[0, 1, 2]` — the
older record `"a"` still precedes the newer `"b"` — while sorting the
filtered canonical list by the date-descending comparator yields
`[1, 0, 2]`: the `strptime` of the empty date raises, the `except`
swallows it, and the sort is skipped, so the projection does **not**
equal filter-then-sort. -/
theorem projection_after_rebuild_counterexample :
    (stateAfter exDateSt opsBadDate (FinOp.setKey "date_desc")).displayed = [0, 1, 2] ∧
    pySortRefs (stateAfter exDateSt opsBadDate (FinOp.setKey "date_desc")).heap
      (stateAfter exDateSt opsBadDate (FinOp.setKey "date_desc")).sortKey
      (pyFilter (stateAfter exDateSt opsBadDate (FinOp.setKey "date_desc")).heap
        (stateAfter exDateSt opsBadDate (FinOp.setKey "date_desc")).searchTerm
        (stateAfter exDateSt opsBadDate (FinOp.setKey "date_desc")).depenses) =
      [1, 0, 2] ∧
    (stateAfter exDateSt opsBadDate (FinOp.setKey "date_desc")).displayed ≠
      pySortRefs (stateAfter exDateSt opsBadDate (FinOp.setKey "date_desc")).heap
        (stateAfter exDateSt opsBadDate (FinOp.setKey "date_desc")).sortKey
        (pyFilter (stateAfter exDateSt opsBadDate (FinOp.setKey "date_desc")).heap
          (stateAfter exDateSt opsBadDate (FinOp.setKey "date_desc")).searchTerm
          (stateAfter exDateSt opsBadDate (FinOp.setKey "date_desc")).depenses) := by
  have h1 : (stateAfter exDateSt opsBadDate (FinOp.setKey "date_desc")).displayed =
      [0, 1, 2] := by rfl
  have h2 : pySortRefs (stateAfter exDateSt opsBadDate (FinOp.setKey "date_desc")).heap
      (stateAfter exDateSt opsBadDate (FinOp.setKey "date_desc")).sortKey
      (pyFilter (stateAfter exDateSt opsBadDate (FinOp.setKey "date_desc")).heap
        (stateAfter exDateSt opsBadDate (FinOp.setKey "date_desc")).searchTerm
        (stateAfter exDateSt opsBadDate (FinOp.setKey "date_desc")).depenses) =
      [1, 0, 2] := by rfl
  refine ⟨h1, h2, ?_⟩
  rw [h1, h2]
  decide

/-- C2 as amended: after any sequence of `add_expense` / `update_expense`
/ `remove_expense` operations followed by one full-rebuild operation
(`filter_depenses_by_name`, `sort_depenses`, or a successful `load_mois`),
the displayed projection equals the canonical list filtered by
case-insensitive substring match of the stored search term on the record
label (`pyFilter`) and then stably sorted by the current sort key's
comparator (`pySortRefs`) — **unless** a date sort key is in effect and
some filtered record's date fails to parse as `%d/%m/%Y` (for instance
the empty date every plain add creates): then the sort's key function
raises, the surrounding `except` swallows the error, the sort is skipped,
and the projection is the filtered list in canonical order, unsorted. -/
theorem projection_after_rebuild_amended (st0 : ModelState) (ops : List RecOp)
    (fop : FinOp)
    (hfin : finOk fop (ops.foldl (fun s o => runRec o s) st0) = true) :
    (dateSortOk (stateAfter st0 ops fop) = true →
      (stateAfter st0 ops fop).displayed =
        pySortRefs (stateAfter st0 ops fop).heap (stateAfter st0 ops fop).sortKey
          (pyFilter (stateAfter st0 ops fop).heap
            (stateAfter st0 ops fop).searchTerm
            (stateAfter st0 ops fop).depenses)) ∧
    (dateSortOk (stateAfter st0 ops fop) = false →
      (stateAfter st0 ops fop).displayed =
        pyFilter (stateAfter st0 ops fop).heap (stateAfter st0 ops fop).searchTerm
          (stateAfter st0 ops fop).depenses) :=
  ⟨fun hd => runFin_projection fop (ops.foldl (fun s o => runRec o s) st0) hfin hd,
   fun hd => runFin_projection_skipped fop (ops.foldl (fun s o => runRec o s) st0) hfin hd⟩

/-- Witness for the amended C2, exercising both branches: under the
non-date key `nom_asc` the projection is the sorted pair `[1, 0]`; under
`date_desc` with an unparseable date in the batch the projection is the
bare filtered canonical list. -/
theorem projection_after_rebuild_amended_witness :
    (stateAfter exMoisSt opsC2 (FinOp.setKey "nom_asc")).displayed = [1, 0] ∧
    (stateAfter exDateSt opsBadDate (FinOp.setKey "date_desc")).displayed =
      pyFilter (stateAfter exDateSt opsBadDate (FinOp.setKey "date_desc")).heap
        (stateAfter exDateSt opsBadDate (FinOp.setKey "date_desc")).searchTerm
        (stateAfter exDateSt opsBadDate (FinOp.setKey "date_desc")).depenses := by
  have h1 := (projection_after_rebuild_amended exMoisSt opsC2
    (FinOp.setKey "nom_asc") (by rfl)).1 (by rfl)
  have h2 := (projection_after_rebuild_amended exDateSt opsBadDate
    (FinOp.setKey "date_desc") (by rfl)).2 (by rfl)
  refine ⟨?_, h2⟩
  rw [h1]
  rfl
